import Mathlib

/-
Verification development for the parallel LLM execution engine
(python/parallel_llm_executor.py).

The engine is embedded shallowly: rationals stand for Python floats
(all of the engine's numeric literals are exact in binary-free
arithmetic at the granularity the properties use), the simulated model
generation body and the thread-pool future behaviour are oracles
supplied as functions, and free-form metadata dictionaries — which no
property reads — are not modelled.
-/

namespace CogniwareIMS

/-- A model descriptor as served by the model catalog (cogniware_llms):
identity, display name, and model class, read-only to the engine. -/
structure LLMInfo where
  model_id : String
  model_name : String
  model_type : String
deriving DecidableEq

/-- Mirrors the LLMRequest dataclass.  The parameters dict
`\x7b'temperature': t, 'max_tokens': m\x7d` is flattened into its two
entries. -/
structure LLMRequest where
  llm_id : String
  llm_name : String
  llm_type : String
  prompt : String
  temperature : Rat
  max_tokens : Nat
  priority : Nat
deriving DecidableEq

/-- Mirrors the LLMResponse dataclass (metadata map omitted). -/
structure LLMResponse where
  llm_id : String
  llm_name : String
  llm_type : String
  response_text : String
  confidence_score : Rat
  processing_time_ms : Rat
  tokens_generated : Nat
  success : Bool
  error : Option String
deriving DecidableEq

/-- Mirrors the ParallelExecutionResult dataclass (metadata map omitted). -/
structure ParallelExecutionResult where
  success : Bool
  strategy_used : String
  llms_executed : Nat
  interface_llm_results : List LLMResponse
  knowledge_llm_results : List LLMResponse
  synthesized_result : String
  confidence_score : Rat
  total_processing_time_ms : Rat
  parallel_speedup : Rat
  error : Option String
deriving DecidableEq

/-- The ProcessingStrategy enum. -/
inductive ProcessingStrategy where
  | parallel
  | interface_only
  | knowledge_only
  | sequential
  | consensus
deriving DecidableEq

/-- The string value of each ProcessingStrategy member. -/
def ProcessingStrategy.value : ProcessingStrategy → String
  | .parallel => "parallel"
  | .interface_only => "interface_only"
  | .knowledge_only => "knowledge_only"
  | .sequential => "sequential"
  | .consensus => "consensus"

/-- Outcome of the simulated generation body inside _execute_single_llm
(the big module-dependent branch, opaque to this development): either it
produces a text with a confidence and token count, or it raises an
exception whose string is `message`; `elapsed_ms` is the measured
(time.time() - start_time) * 1000 at the corresponding return. -/
inductive BodyOutcome where
  | ok (response_text : String) (confidence : Rat) (tokens : Nat) (elapsed_ms : Rat)
  | exn (message : String) (elapsed_ms : Rat)
deriving DecidableEq

/-- _execute_single_llm: wraps the generation body in try/except and
always returns an LLMResponse — the success branch copies the body's
text/confidence/tokens, the except branch returns success=False with
empty text, confidence 0, and error=str(e). -/
def execute_single_llm (request : LLMRequest) (body : BodyOutcome) : LLMResponse :=
  match body with
  | .ok text conf tokens elapsed =>
      { llm_id := request.llm_id
        llm_name := request.llm_name
        llm_type := request.llm_type
        response_text := text
        confidence_score := conf
        processing_time_ms := elapsed
        tokens_generated := tokens
        success := true
        error := none }
  | .exn msg elapsed =>
      { llm_id := request.llm_id
        llm_name := request.llm_name
        llm_type := request.llm_type
        response_text := ""
        confidence_score := 0
        processing_time_ms := elapsed
        tokens_generated := 0
        success := false
        error := some msg }

/-- Environment for one dispatch: what the simulated generation body of
each request does, and whether future.result(timeout=30) raises for a
request (some message = the str of the raised exception, e.g. a
timeout; none = the future completes). -/
structure ExecEnv where
  invokeBody : LLMRequest → BodyOutcome
  futureRaises : LLMRequest → Option String

/-- The error LLMResponse built in _execute_parallel_mcp when
future.result raises: empty text, confidence 0, time 0, error=str(e). -/
def error_response (req : LLMRequest) (msg : String) : LLMResponse :=
  { llm_id := req.llm_id
    llm_name := req.llm_name
    llm_type := req.llm_type
    response_text := ""
    confidence_score := 0
    processing_time_ms := 0
    tokens_generated := 0
    success := false
    error := some msg }

/-- The LLMResponse the parallel collection loop records for one
request: the future's response if it completes, the error response if
future.result raises. -/
def resolveFuture (env : ExecEnv) (req : LLMRequest) : LLMResponse :=
  match env.futureRaises req with
  | some msg => error_response req msg
  | none => execute_single_llm req (env.invokeBody req)

/-- _format_interface_prompt. -/
def format_interface_prompt (prompt : String) : String :=
  "You are a helpful AI assistant specialized in generating code and solutions.\n\nUser Request: "
    ++ prompt
    ++ "\n\nPlease provide a complete, working solution with proper code formatting, comments, and examples."

/-- _format_knowledge_prompt. -/
def format_knowledge_prompt (prompt : String) : String :=
  "You are a knowledge retrieval system. Provide relevant context and information.\n\nUser Request: "
    ++ prompt
    ++ "\n\nPlease provide: 1) Relevant background information, 2) Best practices, 3) Common pitfalls to avoid."

/-- Build one LLMRequest from a descriptor (all call sites set
priority 1, explicitly or by dataclass default). -/
def mkRequest (llm : LLMInfo) (ltype : String) (prompt : String)
    (temperature : Rat) (maxTokens : Nat) : LLMRequest :=
  { llm_id := llm.model_id
    llm_name := llm.model_name
    llm_type := ltype
    prompt := prompt
    temperature := temperature
    max_tokens := maxTokens
    priority := 1 }

/-- The request list _execute_parallel_mcp submits: one
interface-formatted request per interface LLM, then one
knowledge-formatted request per knowledge LLM, in catalog order. -/
def parallelRequests (prompt : String) (interfaceLLMs knowledgeLLMs : List LLMInfo)
    (temperature : Rat) (maxTokens : Nat) : List LLMRequest :=
  interfaceLLMs.map
      (fun llm => mkRequest llm "interface" (format_interface_prompt prompt) temperature maxTokens)
    ++ knowledgeLLMs.map
      (fun llm => mkRequest llm "knowledge" (format_knowledge_prompt prompt) temperature maxTokens)

/-- The collection loop of _execute_parallel_mcp: each request yields
exactly one response (completed or error), appended in submission order
to the interface or knowledge list according to the request's type. -/
def collectResults (env : ExecEnv) : List LLMRequest → List LLMResponse × List LLMResponse
  | [] => ([], [])
  | req :: rest =>
      let resp := resolveFuture env req
      let tail := collectResults env rest
      if req.llm_type = "interface" then (resp :: tail.1, tail.2)
      else (tail.1, resp :: tail.2)

/-- Python max(list) over a duration list that always contains 0 (the
source appends [0] sentinels): the maximum of the elements and 0. -/
def maxOrZero (l : List Rat) : Rat := l.foldr max 0

/-- Python max(results, key=confidence, default=None): the first
element of maximal confidence, or none on an empty list (Python max
replaces the running best only on a strictly greater key). -/
def pyMaxByConf (l : List LLMResponse) : Option LLMResponse :=
  match l with
  | [] => none
  | x :: xs =>
      some (xs.foldl
        (fun best r => if best.confidence_score < r.confidence_score then r else best) x)

/-- _synthesize_parallel_results: returns
(synthesized text, combined confidence, speedup factor). -/
def synthesize_parallel_results (interfaceResults knowledgeResults : List LLMResponse) :
    String × Rat × Rat :=
  let sequentialTime := ((interfaceResults ++ knowledgeResults).map (·.processing_time_ms)).sum
  let parallelTime := maxOrZero ((interfaceResults ++ knowledgeResults).map (·.processing_time_ms))
  let speedup := if 0 < parallelTime then sequentialTime / parallelTime else 1
  let bestInterface := pyMaxByConf (interfaceResults.filter (·.success))
  let bestKnowledge := pyMaxByConf (knowledgeResults.filter (·.success))
  match bestInterface, bestKnowledge with
  | some bi, some bk =>
      (bi.response_text ++ "\n\n# Knowledge Context (from " ++ bk.llm_name ++ "):\n# "
          ++ bk.response_text ++ "\n",
       bi.confidence_score * 0.7 + bk.confidence_score * 0.3,
       speedup)
  | some bi, none => (bi.response_text, bi.confidence_score * 0.8, speedup)
  | none, some bk => (bk.response_text, bk.confidence_score * 0.6, speedup)
  | none, none => ("Unable to generate result from available LLMs", 0, speedup)

/-- _execute_parallel_mcp: submits all requests, collects one response
per request, synthesizes, and returns success=True unconditionally
(total_processing_time_ms is set later by the caller). -/
def execute_parallel_mcp (env : ExecEnv) (prompt : String)
    (interfaceLLMs knowledgeLLMs : List LLMInfo)
    (temperature : Rat) (maxTokens : Nat) : ParallelExecutionResult :=
  let requests := parallelRequests prompt interfaceLLMs knowledgeLLMs temperature maxTokens
  let collected := collectResults env requests
  let synth := synthesize_parallel_results collected.1 collected.2
  { success := true
    strategy_used := "parallel_mcp"
    llms_executed := collected.1.length + collected.2.length
    interface_llm_results := collected.1
    knowledge_llm_results := collected.2
    synthesized_result := synth.1
    confidence_score := synth.2.1
    total_processing_time_ms := 0
    parallel_speedup := synth.2.2
    error := none }

/-- _execute_single_type: failure result when the class list is empty,
otherwise one direct _execute_single_llm call on the first LLM of the
list with the raw prompt. -/
def execute_single_type (env : ExecEnv) (prompt : String) (llms : List LLMInfo)
    (temperature : Rat) (maxTokens : Nat) (llmType : String) : ParallelExecutionResult :=
  match llms with
  | [] =>
      { success := false
        strategy_used := llmType ++ "_only"
        llms_executed := 0
        interface_llm_results := []
        knowledge_llm_results := []
        synthesized_result := ""
        confidence_score := 0
        total_processing_time_ms := 0
        parallel_speedup := 1
        error := some ("No " ++ llmType ++ " LLMs available") }
  | llm :: _ =>
      let request := mkRequest llm llmType prompt temperature maxTokens
      let response := execute_single_llm request (env.invokeBody request)
      { success := response.success
        strategy_used := llmType ++ "_only"
        llms_executed := 1
        interface_llm_results := if llmType = "interface" then [response] else []
        knowledge_llm_results := if llmType = "knowledge" then [response] else []
        synthesized_result := response.response_text
        confidence_score := response.confidence_score
        total_processing_time_ms := 0
        parallel_speedup := 1
        error := if response.success then none else response.error }

/-- _execute_sequential: the first interface LLM (when present) is run
on the raw prompt, then the first knowledge LLM (when present) on the
prompt augmented with the interface output; results are combined by the
synthesizer but parallel_speedup is the fixed constant 0.5 and
success is True unconditionally. -/
def execute_sequential (env : ExecEnv) (prompt : String)
    (interfaceLLMs knowledgeLLMs : List LLMInfo)
    (temperature : Rat) (maxTokens : Nat) : ParallelExecutionResult :=
  let interfaceResult : Option LLMResponse :=
    match interfaceLLMs with
    | [] => none
    | llm :: _ =>
        let req := mkRequest llm "interface" prompt temperature maxTokens
        some (execute_single_llm req (env.invokeBody req))
  let contextText :=
    match interfaceResult with
    | some r => r.response_text
    | none => ""
  let knowledgeResult : Option LLMResponse :=
    match knowledgeLLMs with
    | [] => none
    | llm :: _ =>
        let req := mkRequest llm "knowledge"
          (prompt ++ "\n\nContext from interface: " ++ contextText) temperature maxTokens
        some (execute_single_llm req (env.invokeBody req))
  let interfaceResults := interfaceResult.toList
  let knowledgeResults := knowledgeResult.toList
  let synth := synthesize_parallel_results interfaceResults knowledgeResults
  { success := true
    strategy_used := "sequential"
    llms_executed := interfaceResults.length + knowledgeResults.length
    interface_llm_results := interfaceResults
    knowledge_llm_results := knowledgeResults
    synthesized_result := synth.1
    confidence_score := synth.2.1
    total_processing_time_ms := 0
    parallel_speedup := 0.5
    error := none }

/-- The request list _execute_consensus submits: at most the first 3
LLMs of the pooled list, each with its own catalog model_type and the
raw prompt. -/
def consensusRequests (prompt : String) (llms : List LLMInfo)
    (temperature : Rat) (maxTokens : Nat) : List LLMRequest :=
  (llms.take 3).map (fun llm => mkRequest llm llm.model_type prompt temperature maxTokens)

/-- The collection loop of _execute_consensus: a bare except/pass
drops every request whose future.result raises; only completed
responses are kept. -/
def consensusResults (env : ExecEnv) (reqs : List LLMRequest) : List LLMResponse :=
  reqs.filterMap (fun req =>
    match env.futureRaises req with
    | some _ => none
    | none => some (execute_single_llm req (env.invokeBody req)))

/-- _execute_consensus: vote by highest confidence over the collected
results; parallel_speedup is 0.8 times the number of collected
results. -/
def execute_consensus (env : ExecEnv) (prompt : String) (llms : List LLMInfo)
    (temperature : Rat) (maxTokens : Nat) : ParallelExecutionResult :=
  let requests := consensusRequests prompt llms temperature maxTokens
  let allResults := consensusResults env requests
  let best := pyMaxByConf allResults
  { success := best.isSome
    strategy_used := "consensus"
    llms_executed := allResults.length
    interface_llm_results := allResults.filter (·.llm_type = "interface")
    knowledge_llm_results := allResults.filter (·.llm_type = "knowledge")
    synthesized_result :=
      match best with
      | some b => b.response_text
      | none => ""
    confidence_score :=
      match best with
      | some b => b.confidence_score
      | none => 0
    total_processing_time_ms := 0
    parallel_speedup := (allResults.length : Rat) * 0.8
    error := none }

/-- The statistics dict of ParallelLLMExecutor. -/
structure Statistics where
  total_executions : Nat
  parallel_executions : Nat
  single_executions : Nat
  average_speedup : Rat
  total_time_saved_ms : Rat
deriving DecidableEq

/-- The statistics dict as initialised in __init__. -/
def initStatistics : Statistics :=
  { total_executions := 0
    parallel_executions := 0
    single_executions := 0
    average_speedup := 0
    total_time_saved_ms := 0 }

/-- _update_statistics: increments the total count, one of the
parallel/single counts according to llms_executed > 1, recomputes the
running mean of speedup, and accumulates
total_processing_time_ms * speedup - total_processing_time_ms into
total_time_saved_ms. -/
def update_statistics (stats : Statistics) (result : ParallelExecutionResult) : Statistics :=
  let total := stats.total_executions + 1
  let par :=
    if 1 < result.llms_executed then stats.parallel_executions + 1
    else stats.parallel_executions
  let single :=
    if 1 < result.llms_executed then stats.single_executions
    else stats.single_executions + 1
  let totalSpeedup := stats.average_speedup * ((total : Rat) - 1) + result.parallel_speedup
  let estimatedSequential := result.total_processing_time_ms * result.parallel_speedup
  let timeSaved := estimatedSequential - result.total_processing_time_ms
  { total_executions := total
    parallel_executions := par
    single_executions := single
    average_speedup := totalSpeedup / (total : Rat)
    total_time_saved_ms := stats.total_time_saved_ms + timeSaved }

/-- One entry of execution_history, as appended by execute_parallel. -/
structure HistoryEntry where
  timestamp : String
  prompt : String
  strategy : String
  llms_used : Nat
  time_ms : Rat
  speedup : Rat
deriving DecidableEq

/-- The mutable state of a ParallelLLMExecutor instance: the statistics
dict and the execution_history list. -/
structure ExecutorState where
  statistics : Statistics
  execution_history : List HistoryEntry
deriving DecidableEq

/-- The state right after __init__. -/
def initState : ExecutorState :=
  { statistics := initStatistics, execution_history := [] }

/-- The inputs of one execute_parallel call.  The catalogs stand for
get_interface_llms() / get_knowledge_llms(), the environment for the
simulated bodies and future behaviour of this call, timestamp for
datetime.now().isoformat() and wall_clock_ms for the measured
(time.time() - start_time) * 1000. -/
structure CallInputs where
  prompt : String
  strategy : ProcessingStrategy
  num_interface_llms : Nat
  num_knowledge_llms : Nat
  temperature : Rat
  max_tokens : Nat
  interface_catalog : List LLMInfo
  knowledge_catalog : List LLMInfo
  env : ExecEnv
  timestamp : String
  wall_clock_ms : Rat

/-- The early-return result of execute_parallel when both sliced LLM
lists are empty. -/
def no_llms_result (strategy : ProcessingStrategy) : ParallelExecutionResult :=
  { success := false
    strategy_used := strategy.value
    llms_executed := 0
    interface_llm_results := []
    knowledge_llm_results := []
    synthesized_result := ""
    confidence_score := 0
    total_processing_time_ms := 0
    parallel_speedup := 0
    error := some "No LLMs available" }

/-- The strategy branch of execute_parallel. -/
def dispatchStrategy (c : CallInputs) (interfaceLLMs knowledgeLLMs : List LLMInfo) :
    ParallelExecutionResult :=
  match c.strategy with
  | .parallel =>
      execute_parallel_mcp c.env c.prompt interfaceLLMs knowledgeLLMs c.temperature c.max_tokens
  | .interface_only =>
      execute_single_type c.env c.prompt interfaceLLMs c.temperature c.max_tokens "interface"
  | .knowledge_only =>
      execute_single_type c.env c.prompt knowledgeLLMs c.temperature c.max_tokens "knowledge"
  | .sequential =>
      execute_sequential c.env c.prompt interfaceLLMs knowledgeLLMs c.temperature c.max_tokens
  | .consensus =>
      execute_consensus c.env c.prompt (interfaceLLMs ++ knowledgeLLMs) c.temperature c.max_tokens

/-- Whether the call's sliced LLM lists trigger the early no-LLMs
return of execute_parallel. -/
def CallInputs.noModels (c : CallInputs) : Bool :=
  (c.interface_catalog.take c.num_interface_llms).isEmpty
    && (c.knowledge_catalog.take c.num_knowledge_llms).isEmpty

/-- execute_parallel: slices the catalogs, returns the no-LLMs failure
without touching statistics or history when both slices are empty, and
otherwise dispatches on the strategy, overwrites
total_processing_time_ms with the wall clock, updates statistics and
appends one history entry (prompt truncated to 100 characters). -/
def execute_parallel (st : ExecutorState) (c : CallInputs) :
    ParallelExecutionResult × ExecutorState :=
  let interfaceLLMs := c.interface_catalog.take c.num_interface_llms
  let knowledgeLLMs := c.knowledge_catalog.take c.num_knowledge_llms
  if c.noModels then (no_llms_result c.strategy, st)
  else
    let result0 := dispatchStrategy c interfaceLLMs knowledgeLLMs
    let result := { result0 with total_processing_time_ms := c.wall_clock_ms }
    let stats := update_statistics st.statistics result
    let entry : HistoryEntry :=
      { timestamp := c.timestamp
        prompt := c.prompt.take 100
        strategy := c.strategy.value
        llms_used := result.llms_executed
        time_ms := result.total_processing_time_ms
        speedup := result.parallel_speedup }
    (result, { statistics := stats, execution_history := st.execution_history ++ [entry] })

/-- A sequence of execute_parallel calls threaded through the executor
state. -/
def runCalls (st : ExecutorState) : List CallInputs → ExecutorState
  | [] => st
  | c :: rest => runCalls (execute_parallel st c).2 rest

/-- The dict returned by get_statistics. -/
structure StatisticsSnapshot where
  total_executions : Nat
  parallel_executions : Nat
  single_executions : Nat
  average_speedup : Rat
  total_time_saved_ms : Rat
  history_count : Nat
  recent_executions : List HistoryEntry
deriving DecidableEq

/-- Python history[-10:]: the last at-most-10 elements of the list. -/
def takeLast (n : Nat) (l : List HistoryEntry) : List HistoryEntry :=
  l.drop (l.length - n)

/-- get_statistics: the counters plus the history length and the last
10 history entries. -/
def get_statistics (st : ExecutorState) : StatisticsSnapshot :=
  { total_executions := st.statistics.total_executions
    parallel_executions := st.statistics.parallel_executions
    single_executions := st.statistics.single_executions
    average_speedup := st.statistics.average_speedup
    total_time_saved_ms := st.statistics.total_time_saved_ms
    history_count := st.execution_history.length
    recent_executions := takeLast 10 st.execution_history }

/-- Concrete interface model descriptor for witnesses. -/
def llmA : LLMInfo :=
  { model_id := "llm-a", model_name := "LLM A", model_type := "interface" }

/-- Second concrete interface model descriptor. -/
def llmB : LLMInfo :=
  { model_id := "llm-b", model_name := "LLM B", model_type := "interface" }

/-- Concrete knowledge model descriptor. -/
def llmK : LLMInfo :=
  { model_id := "llm-k", model_name := "LLM K", model_type := "knowledge" }

/-- Environment where every generation body raises. -/
def envAllFail : ExecEnv :=
  { invokeBody := fun _ => .exn "boom" 0, futureRaises := fun _ => none }

/-- Environment where every generation body succeeds in 100 ms. -/
def envOk : ExecEnv :=
  { invokeBody := fun req => .ok ("out-" ++ req.llm_id) 0.9 10 100,
    futureRaises := fun _ => none }

/-- Environment with elapsed times 300 ms for the knowledge model and
500 ms for the interface models. -/
def envTimes : ExecEnv :=
  { invokeBody := fun req =>
      .ok "t" 0.9 10 (if req.llm_id = "llm-k" then 300 else 500),
    futureRaises := fun _ => none }

/-- Environment where every future.result raises (e.g. a timeout). -/
def envRaiseAll : ExecEnv :=
  { invokeBody := fun _ => .ok "x" 0.9 1 1, futureRaises := fun _ => some "timeout" }

/-- Concrete successful interface response, confidence 0.95,
500 ms. -/
def respI : LLMResponse :=
  { llm_id := "llm-a", llm_name := "LLM A", llm_type := "interface",
    response_text := "interface answer", confidence_score := 0.95,
    processing_time_ms := 500, tokens_generated := 10, success := true, error := none }

/-- Second concrete successful interface response, 500 ms. -/
def respI2 : LLMResponse :=
  { respI with llm_id := "llm-b", llm_name := "LLM B", confidence_score := 0.9 }

/-- Concrete successful knowledge response, confidence 0.85, 300 ms. -/
def respK : LLMResponse :=
  { llm_id := "llm-k", llm_name := "LLM K", llm_type := "knowledge",
    response_text := "knowledge context", confidence_score := 0.85,
    processing_time_ms := 300, tokens_generated := 5, success := true, error := none }

/-- Concrete request for invoker witnesses. -/
def reqA : LLMRequest := mkRequest llmA "interface" "p" 0.7 2048

/-- Concrete sequential-strategy call for the C10 witness. -/
def seqCall : CallInputs :=
  { prompt := "p", strategy := .sequential, num_interface_llms := 2,
    num_knowledge_llms := 1, temperature := 0.7, max_tokens := 2048,
    interface_catalog := [llmA, llmB], knowledge_catalog := [llmK],
    env := envOk, timestamp := "t0", wall_clock_ms := 100 }

/-- Concrete parallel call with a single available interface model
whose only invocation fails. -/
def c1Call : CallInputs :=
  { prompt := "p", strategy := .parallel, num_interface_llms := 2,
    num_knowledge_llms := 1, temperature := 0.7, max_tokens := 2048,
    interface_catalog := [llmA], knowledge_catalog := [],
    env := envAllFail, timestamp := "t1", wall_clock_ms := 100 }

/-- Concrete call with empty model catalogs. -/
def emptyCall : CallInputs :=
  { prompt := "p", strategy := .parallel, num_interface_llms := 2,
    num_knowledge_llms := 1, temperature := 0.7, max_tokens := 2048,
    interface_catalog := [], knowledge_catalog := [],
    env := envOk, timestamp := "t2", wall_clock_ms := 50 }

/-- The number of calls in a sequence that pass the availability check
and therefore reach the statistics update and history append. -/
def countWithModels (cs : List CallInputs) : Nat :=
  (cs.filter (fun c => !c.noModels)).length

/-- One step of the best-so-far selection: keep `b` unless the candidate
strictly exceeds it. -/
def stepBest (b : LLMResponse) : Option LLMResponse → LLMResponse
  | none => b
  | some m => if b.confidence_score < m.confidence_score then m else b

/-- Specification-side selector: the earliest element of maximal
confidence (a later element replaces the running best only when
strictly greater). -/
def firstBest : List LLMResponse → Option LLMResponse
  | [] => none
  | x :: xs => some (stepBest x (firstBest xs))

theorem foldl_best_eq (xs : List LLMResponse) :
    ∀ b : LLMResponse,
      xs.foldl (fun best r => if best.confidence_score < r.confidence_score then r else best) b =
        stepBest b (firstBest xs) := by
  induction xs with
  | nil => intro b; rfl
  | cons x xs ih =>
    intro b
    rw [List.foldl_cons, ih]
    show stepBest (stepBest b (some x)) (firstBest xs) = stepBest b (firstBest (x :: xs))
    simp only [firstBest, stepBest]
    cases h : firstBest xs with
    | none => simp [stepBest]
    | some m =>
      simp only [stepBest]
      split_ifs <;> first | rfl | linarith

theorem pyMaxByConf_eq_firstBest (l : List LLMResponse) : pyMaxByConf l = firstBest l := by
  cases l with
  | nil => rfl
  | cons x xs =>
    simp only [pyMaxByConf, firstBest, foldl_best_eq]

theorem firstBest_eq_none (l : List LLMResponse) : firstBest l = none ↔ l = [] := by
  cases l <;> simp [firstBest]

theorem firstBest_le (l : List LLMResponse) :
    ∀ m : LLMResponse, firstBest l = some m →
      ∀ y ∈ l, y.confidence_score ≤ m.confidence_score := by
  induction l with
  | nil => intro m h; cases h
  | cons x xs ih =>
    intro m h y hy
    simp only [firstBest] at h
    injection h with h
    cases hfb : firstBest xs with
    | none =>
      have hxs : xs = [] := (firstBest_eq_none xs).mp hfb
      subst hxs
      rw [hfb] at h
      simp only [stepBest] at h
      subst h
      simp at hy
      subst hy
      exact le_refl _
    | some m' =>
      rw [hfb] at h
      simp only [stepBest] at h
      rcases List.mem_cons.mp hy with hyx | hyxs
      · subst hyx
        split_ifs at h <;> subst h
        · linarith
        · exact le_refl _
      · have hle := ih m' hfb y hyxs
        split_ifs at h <;> subst h
        · exact hle
        · linarith

theorem firstBest_decomp (l : List LLMResponse) :
    ∀ m : LLMResponse, firstBest l = some m →
      ∃ l1 l2, l = l1 ++ m :: l2 ∧
        ∀ y ∈ l1, y.confidence_score < m.confidence_score := by
  induction l with
  | nil => intro m h; cases h
  | cons x xs ih =>
    intro m h
    simp only [firstBest] at h
    injection h with h
    cases hfb : firstBest xs with
    | none =>
      rw [hfb] at h
      simp only [stepBest] at h
      subst h
      exact ⟨[], xs, rfl, by simp⟩
    | some m' =>
      rw [hfb] at h
      simp only [stepBest] at h
      split_ifs at h with hlt
      · subst h
        obtain ⟨l1, l2, hdec, hl1⟩ := ih m' hfb
        exact ⟨x :: l1, l2, by rw [hdec]; rfl, by
          intro y hy
          rcases List.mem_cons.mp hy with hyx | hyl1
          · subst hyx; exact hlt
          · exact hl1 y hyl1⟩
      · subst h
        exact ⟨[], xs, rfl, by simp⟩

theorem pyMaxByConf_mem (l : List LLMResponse) (m : LLMResponse)
    (h : pyMaxByConf l = some m) : m ∈ l := by
  rw [pyMaxByConf_eq_firstBest] at h
  obtain ⟨l1, l2, hdec, _⟩ := firstBest_decomp l m h
  rw [hdec]
  simp

theorem resolveFuture_llm_id (env : ExecEnv) (req : LLMRequest) :
    (resolveFuture env req).llm_id = req.llm_id := by
  unfold resolveFuture
  cases env.futureRaises req with
  | some msg => rfl
  | none => cases env.invokeBody req <;> rfl

theorem execute_single_llm_fail_shape (req : LLMRequest) (body : BodyOutcome)
    (h : (execute_single_llm req body).success = false) :
    (execute_single_llm req body).response_text = "" ∧
      (execute_single_llm req body).confidence_score = 0 ∧
      (execute_single_llm req body).error ≠ none := by
  cases body with
  | ok text conf tokens elapsed => cases h
  | exn msg elapsed => exact ⟨rfl, rfl, by simp [execute_single_llm]⟩

theorem resolveFuture_fail_shape (env : ExecEnv) (req : LLMRequest)
    (h : (resolveFuture env req).success = false) :
    (resolveFuture env req).response_text = "" ∧
      (resolveFuture env req).confidence_score = 0 := by
  unfold resolveFuture at h ⊢
  cases hf : env.futureRaises req with
  | some msg => exact ⟨rfl, rfl⟩
  | none =>
    rw [hf] at h
    have := execute_single_llm_fail_shape req (env.invokeBody req) h
    exact ⟨this.1, this.2.1⟩

theorem collectResults_all_fail (env : ExecEnv) :
    ∀ reqs : List LLMRequest,
      (∀ req ∈ reqs, (resolveFuture env req).success = false) →
      (∀ r ∈ (collectResults env reqs).1, r.success = false) ∧
      (∀ r ∈ (collectResults env reqs).2, r.success = false) := by
  intro reqs
  induction reqs with
  | nil => intro _; simp [collectResults]
  | cons req rest ih =>
    intro h
    have hreq := h req (by simp)
    have ih2 := ih (fun r hr => h r (by simp [hr]))
    simp only [collectResults]
    split_ifs with ht
    · constructor
      · intro r hr
        rcases List.mem_cons.mp hr with h1 | h2
        · subst h1; exact hreq
        · exact ih2.1 r h2
      · exact ih2.2
    · constructor
      · exact ih2.1
      · intro r hr
        rcases List.mem_cons.mp hr with h1 | h2
        · subst h1; exact hreq
        · exact ih2.2 r h2

theorem filter_success_eq_nil (l : List LLMResponse)
    (h : ∀ r ∈ l, r.success = false) : l.filter (·.success) = [] := by
  induction l with
  | nil => rfl
  | cons x xs ih =>
    have hx := h x (by simp)
    simp only [List.filter_cons, hx]
    exact ih (fun r hr => h r (by simp [hr]))

theorem collect_knowledge_only (env : ExecEnv) :
    ∀ kReqs : List LLMRequest, (∀ r ∈ kReqs, ¬ r.llm_type = "interface") →
      collectResults env kReqs = ([], kReqs.map (resolveFuture env)) := by
  intro kReqs
  induction kReqs with
  | nil => intro _; rfl
  | cons q qs ih =>
    intro hk
    have hq : ¬ q.llm_type = "interface" := hk q (by simp)
    have ih2 := ih (fun r hr => hk r (by simp [hr]))
    simp [collectResults, hq, ih2]

theorem collect_blocks (env : ExecEnv) :
    ∀ iReqs kReqs : List LLMRequest,
      (∀ r ∈ iReqs, r.llm_type = "interface") →
      (∀ r ∈ kReqs, ¬ r.llm_type = "interface") →
      collectResults env (iReqs ++ kReqs) =
        (iReqs.map (resolveFuture env), kReqs.map (resolveFuture env)) := by
  intro iReqs
  induction iReqs with
  | nil =>
    intro kReqs _ hk
    simpa using collect_knowledge_only env kReqs hk
  | cons q qs ih =>
    intro kReqs hi hk
    have hq := hi q (by simp)
    have ih2 := ih kReqs (fun r hr => hi r (by simp [hr])) hk
    simp [collectResults, hq, ih2]

theorem consensusResults_length (env : ExecEnv) :
    ∀ reqs : List LLMRequest,
      (consensusResults env reqs).length =
        (reqs.filter (fun req => (env.futureRaises req).isNone)).length := by
  intro reqs
  induction reqs with
  | nil => rfl
  | cons q qs ih =>
    cases h : env.futureRaises q with
    | some m => simpa [consensusResults, List.filterMap_cons, h, List.filter_cons] using ih
    | none => simpa [consensusResults, List.filterMap_cons, h, List.filter_cons] using ih

theorem consensusResults_mem (env : ExecEnv) (reqs : List LLMRequest) (r : LLMResponse)
    (hr : r ∈ consensusResults env reqs) :
    ∃ req ∈ reqs, env.futureRaises req = none ∧
      r = execute_single_llm req (env.invokeBody req) := by
  simp only [consensusResults, List.mem_filterMap] at hr
  obtain ⟨req, hreq, hf⟩ := hr
  cases h : env.futureRaises req with
  | some m => rw [h] at hf; cases hf
  | none =>
    rw [h] at hf
    injection hf with hf
    exact ⟨req, hreq, h, hf.symm⟩

theorem update_statistics_total (s : Statistics) (r : ParallelExecutionResult) :
    (update_statistics s r).total_executions = s.total_executions + 1 := rfl

theorem update_statistics_counts (s : Statistics) (r : ParallelExecutionResult) :
    (update_statistics s r).parallel_executions + (update_statistics s r).single_executions =
      s.parallel_executions + s.single_executions + 1 := by
  simp only [update_statistics]
  split_ifs <;> omega

theorem update_statistics_saved (s : Statistics) (r : ParallelExecutionResult) :
    (update_statistics s r).total_time_saved_ms =
      s.total_time_saved_ms +
        r.total_processing_time_ms * (r.parallel_speedup - 1) := by
  simp only [update_statistics]
  ring

/-- C3: over any interface and knowledge result lists, the synthesizer
combines the best (highest-confidence, earliest-on-tie) successful
results with weights 0.7/0.3 when both classes have a success,
appending the delimited knowledge-context block to the interface text;
0.8 times the best interface confidence when only interface successes
exist; 0.6 times the best knowledge confidence when only knowledge
successes exist; and the selector indeed picks a maximal-confidence
success that strictly exceeds every earlier one. -/
theorem c3_synthesis_weighting (iface know : List LLMResponse) :
    (∀ bi bk : LLMResponse,
        firstBest (iface.filter (·.success)) = some bi →
        firstBest (know.filter (·.success)) = some bk →
        (synthesize_parallel_results iface know).2.1 =
            0.7 * bi.confidence_score + 0.3 * bk.confidence_score ∧
          (synthesize_parallel_results iface know).1 =
            bi.response_text ++ "\n\n# Knowledge Context (from " ++ bk.llm_name ++ "):\n# "
              ++ bk.response_text ++ "\n") ∧
    (∀ bi : LLMResponse,
        firstBest (iface.filter (·.success)) = some bi →
        firstBest (know.filter (·.success)) = none →
        (synthesize_parallel_results iface know).2.1 = 0.8 * bi.confidence_score ∧
          (synthesize_parallel_results iface know).1 = bi.response_text) ∧
    (∀ bk : LLMResponse,
        firstBest (iface.filter (·.success)) = none →
        firstBest (know.filter (·.success)) = some bk →
        (synthesize_parallel_results iface know).2.1 = 0.6 * bk.confidence_score ∧
          (synthesize_parallel_results iface know).1 = bk.response_text) ∧
    (∀ (l : List LLMResponse) (m : LLMResponse),
        firstBest l = some m →
        m ∈ l ∧ (∀ y ∈ l, y.confidence_score ≤ m.confidence_score) ∧
          ∃ l1 l2, l = l1 ++ m :: l2 ∧
            ∀ y ∈ l1, y.confidence_score < m.confidence_score) := by
  refine ⟨?_, ?_, ?_, ?_⟩
  · intro bi bk h1 h2
    simp only [synthesize_parallel_results, pyMaxByConf_eq_firstBest, h1, h2]
    exact ⟨by ring, by simp⟩
  · intro bi h1 h2
    simp only [synthesize_parallel_results, pyMaxByConf_eq_firstBest, h1, h2]
    exact ⟨by ring, by simp⟩
  · intro bk h1 h2
    simp only [synthesize_parallel_results, pyMaxByConf_eq_firstBest, h1, h2]
    exact ⟨by ring, by simp⟩
  · intro l m h
    obtain ⟨l1, l2, hdec, hl1⟩ := firstBest_decomp l m h
    refine ⟨by rw [hdec]; simp, firstBest_le l m h, l1, l2, hdec, hl1⟩

theorem c3_synthesis_weighting_witness :
    firstBest ([respI].filter (·.success)) = some respI ∧
    firstBest ([respK].filter (·.success)) = some respK ∧
    (synthesize_parallel_results [respI] [respK]).2.1 = 0.92 := by
  refine ⟨by rfl, by rfl, ?_⟩
  have h := (c3_synthesis_weighting [respI] [respK]).1 respI respK (by rfl) (by rfl)
  rw [h.1]
  norm_num [respI, respK]

/-- C2 counterexample: a consensus execution whose three invocations
all complete with positive elapsed times [500, 500, 300] reports
speedup 3 * 0.8 = 2.4, not (500+500+300)/500 = 2.6. -/
theorem c2_speedup_counterexample :
    (execute_consensus envTimes "p" [llmA, llmB, llmK] 0.7 2048).parallel_speedup = 12/5 ∧
    ((execute_consensus envTimes "p" [llmA, llmB, llmK] 0.7 2048).interface_llm_results ++
        (execute_consensus envTimes "p" [llmA, llmB, llmK] 0.7 2048).knowledge_llm_results).map
        (·.processing_time_ms) = [500, 500, 300] ∧
    (500 + 500 + 300 : Rat) / 500 = 13/5 ∧
    (12 / 5 : Rat) ≠ 13 / 5 := by
  refine ⟨?_, by rfl, by norm_num, by norm_num⟩
  show ((consensusResults envTimes
      (consensusRequests "p" [llmA, llmB, llmK] 0.7 2048)).length : Rat) * 0.8 = 12/5
  have hlen : (consensusResults envTimes
      (consensusRequests "p" [llmA, llmB, llmK] 0.7 2048)).length = 3 := rfl
  rw [hlen]
  norm_num

/-- C2 amended: the sum-over-max speedup formula holds for the
synthesizer used by the parallel strategy (whose reported speedup is
exactly the synthesizer's), whenever the maximal elapsed time is
positive; the consensus strategy instead reports 0.8 times its result
count. -/
theorem c2_speedup_parallel_amended (iface know : List LLMResponse)
    (h : 0 < maxOrZero ((iface ++ know).map (·.processing_time_ms))) :
    (synthesize_parallel_results iface know).2.2 =
      ((iface ++ know).map (·.processing_time_ms)).sum /
        maxOrZero ((iface ++ know).map (·.processing_time_ms)) ∧
    ∀ (env : ExecEnv) (prompt : String) (i k : List LLMInfo) (t : Rat) (m : Nat),
      (execute_parallel_mcp env prompt i k t m).parallel_speedup =
        (synthesize_parallel_results
          (execute_parallel_mcp env prompt i k t m).interface_llm_results
          (execute_parallel_mcp env prompt i k t m).knowledge_llm_results).2.2 := by
  constructor
  · simp only [synthesize_parallel_results]
    cases pyMaxByConf (iface.filter (·.success)) <;>
      cases pyMaxByConf (know.filter (·.success)) <;>
        · dsimp only
          rw [if_pos h]
  · intro env prompt i k t m
    rfl

theorem c2_speedup_parallel_amended_witness :
    0 < maxOrZero (([respI, respI2] ++ [respK]).map (·.processing_time_ms)) ∧
    (synthesize_parallel_results [respI, respI2] [respK]).2.2 = 13/5 := by
  have hmax : maxOrZero (([respI, respI2] ++ [respK]).map (·.processing_time_ms)) = 500 := by
    norm_num [maxOrZero, respI, respI2, respK, max_def]
  have hpos : 0 < maxOrZero (([respI, respI2] ++ [respK]).map (·.processing_time_ms)) := by
    rw [hmax]; norm_num
  refine ⟨hpos, ?_⟩
  have h := (c2_speedup_parallel_amended [respI, respI2] [respK] hpos).1
  rw [h, hmax]
  norm_num [respI, respI2, respK]

/-- C5 counterexample: an invocation failing with an exception whose
string is empty (as a bare TimeoutError stringifies) yields
success=false with error = some "" — an empty, not a non-empty, error
string. -/
theorem c5_counterexample :
    (execute_single_llm reqA (.exn "" 0)).success = false ∧
    (execute_single_llm reqA (.exn "" 0)).response_text = "" ∧
    (execute_single_llm reqA (.exn "" 0)).confidence_score = 0 ∧
    (execute_single_llm reqA (.exn "" 0)).error = some "" := by
  refine ⟨rfl, rfl, rfl, rfl⟩

/-- C5 amended: the invoker is total (never raises: every outcome is an
LLMResponse); every failure carries success=false, empty output text,
confidence 0, and an error equal to the raised exception's string —
present but possibly empty; the dispatcher's error response for a
raising future has the same shape. -/
theorem c5_invoker_failure_amended (req : LLMRequest) (body : BodyOutcome) :
    ((execute_single_llm req body).success = false →
        (execute_single_llm req body).response_text = "" ∧
        (execute_single_llm req body).confidence_score = 0 ∧
        (execute_single_llm req body).error ≠ none) ∧
    (∀ (msg : String) (elapsed : Rat), body = .exn msg elapsed →
        (execute_single_llm req body).success = false ∧
        (execute_single_llm req body).error = some msg) ∧
    (∀ msg : String, (error_response req msg).success = false ∧
        (error_response req msg).response_text = "" ∧
        (error_response req msg).confidence_score = 0 ∧
        (error_response req msg).error = some msg) := by
  refine ⟨execute_single_llm_fail_shape req body, ?_, ?_⟩
  · intro msg elapsed hb
    subst hb
    exact ⟨rfl, rfl⟩
  · intro msg
    exact ⟨rfl, rfl, rfl, rfl⟩

theorem c5_invoker_failure_amended_witness :
    (execute_single_llm reqA (.exn "e" 1)).response_text = "" ∧
    (execute_single_llm reqA (.exn "e" 1)).confidence_score = 0 ∧
    (execute_single_llm reqA (.exn "e" 1)).error ≠ none :=
  (c5_invoker_failure_amended reqA (.exn "e" 1)).1 (by decide)

/-- C10: each recorded execution adds
total_processing_time_ms * (parallel_speedup - 1) to the cumulative
total_time_saved_ms; the sequential strategy always reports the fixed
speedup 0.5, so every sequential execution with positive wall-clock
time strictly decreases the counter — it is not monotone and can go
negative. -/
theorem c10_time_saved (stats : Statistics) (r : ParallelExecutionResult)
    (st : ExecutorState) (c : CallInputs) :
    ((update_statistics stats r).total_time_saved_ms =
        stats.total_time_saved_ms +
          r.total_processing_time_ms * (r.parallel_speedup - 1)) ∧
    (∀ (env : ExecEnv) (prompt : String) (i k : List LLMInfo) (t : Rat) (m : Nat),
        (execute_sequential env prompt i k t m).parallel_speedup = 0.5) ∧
    (c.strategy = .sequential → c.noModels = false → 0 < c.wall_clock_ms →
        (execute_parallel st c).2.statistics.total_time_saved_ms <
          st.statistics.total_time_saved_ms) := by
  refine ⟨update_statistics_saved stats r, fun env prompt i k t m => rfl, ?_⟩
  intro hstrat hnm hpos
  simp only [execute_parallel, hnm, Bool.false_eq_true, if_false, dispatchStrategy, hstrat]
  rw [update_statistics_saved]
  have hsp : ({ execute_sequential c.env c.prompt (c.interface_catalog.take c.num_interface_llms)
        (c.knowledge_catalog.take c.num_knowledge_llms) c.temperature c.max_tokens with
        total_processing_time_ms := c.wall_clock_ms } :
        ParallelExecutionResult).parallel_speedup = 0.5 := rfl
  rw [hsp]
  have hneg : ((0.5 : Rat) - 1) < 0 := by norm_num
  have : c.wall_clock_ms * ((0.5 : Rat) - 1) < 0 := mul_neg_of_pos_of_neg hpos hneg
  linarith

theorem c10_time_saved_witness :
    0 < seqCall.wall_clock_ms ∧
    (execute_parallel initState seqCall).2.statistics.total_time_saved_ms <
      initState.statistics.total_time_saved_ms ∧
    (execute_parallel initState seqCall).2.statistics.total_time_saved_ms < 0 := by
  have hpos : 0 < seqCall.wall_clock_ms := by norm_num [seqCall]
  have h := (c10_time_saved initStatistics (no_llms_result .parallel) initState seqCall).2.2
    rfl (by rfl) hpos
  exact ⟨hpos, h, by simpa [initState, initStatistics] using h⟩

theorem execute_parallel_no_models (st : ExecutorState) (c : CallInputs)
    (hnm : c.noModels = true) :
    execute_parallel st c = (no_llms_result c.strategy, st) := by
  unfold execute_parallel
  rw [hnm]
  exact rfl

theorem execute_parallel_with_models (st : ExecutorState) (c : CallInputs)
    (hnm : c.noModels = false) :
    execute_parallel st c =
      ({ dispatchStrategy c (c.interface_catalog.take c.num_interface_llms)
            (c.knowledge_catalog.take c.num_knowledge_llms) with
          total_processing_time_ms := c.wall_clock_ms },
       { statistics := update_statistics st.statistics
            { dispatchStrategy c (c.interface_catalog.take c.num_interface_llms)
                (c.knowledge_catalog.take c.num_knowledge_llms) with
              total_processing_time_ms := c.wall_clock_ms }
         execution_history := st.execution_history ++
            [{ timestamp := c.timestamp
               prompt := c.prompt.take 100
               strategy := c.strategy.value
               llms_used := (dispatchStrategy c
                  (c.interface_catalog.take c.num_interface_llms)
                  (c.knowledge_catalog.take c.num_knowledge_llms)).llms_executed
               time_ms := c.wall_clock_ms
               speedup := (dispatchStrategy c
                  (c.interface_catalog.take c.num_interface_llms)
                  (c.knowledge_catalog.take c.num_knowledge_llms)).parallel_speedup }] }) := by
  unfold execute_parallel
  rw [hnm]
  exact rfl

theorem execute_parallel_statistics_step (st : ExecutorState) (c : CallInputs)
    (hnm : c.noModels = false) :
    (execute_parallel st c).2.statistics.total_executions =
        st.statistics.total_executions + 1 ∧
      (execute_parallel st c).2.statistics.parallel_executions +
          (execute_parallel st c).2.statistics.single_executions =
        st.statistics.parallel_executions + st.statistics.single_executions + 1 := by
  rw [execute_parallel_with_models st c hnm]
  exact ⟨update_statistics_total _ _, update_statistics_counts _ _⟩

theorem execute_parallel_history_step (st : ExecutorState) (c : CallInputs)
    (hnm : c.noModels = false) :
    ∃ entry, (execute_parallel st c).2.execution_history =
      st.execution_history ++ [entry] := by
  rw [execute_parallel_with_models st c hnm]
  exact ⟨_, rfl⟩

theorem runCalls_history_length (cs : List CallInputs) : ∀ st : ExecutorState,
    (runCalls st cs).execution_history.length =
      st.execution_history.length + countWithModels cs := by
  induction cs with
  | nil =>
    intro st
    simp [runCalls, countWithModels]
  | cons c rest ih =>
    intro st
    simp only [runCalls]
    cases hnm : c.noModels with
    | true =>
      rw [execute_parallel_no_models st c hnm]
      have hcount : countWithModels (c :: rest) = countWithModels rest := by
        simp [countWithModels, List.filter_cons, hnm]
      rw [ih st, hcount]
    | false =>
      obtain ⟨entry, hE⟩ := execute_parallel_history_step st c hnm
      have hcount : countWithModels (c :: rest) = countWithModels rest + 1 := by
        simp [countWithModels, List.filter_cons, hnm]
      rw [ih _, hE, hcount]
      simp only [List.length_append, List.length_cons, List.length_nil]
      omega

theorem execute_consensus_all_fail (env : ExecEnv) (prompt : String) (llms : List LLMInfo)
    (t : Rat) (mt : Nat)
    (hfail : ∀ req ∈ consensusRequests prompt llms t mt,
      (resolveFuture env req).success = false) :
    (execute_consensus env prompt llms t mt).confidence_score = 0 ∧
      (execute_consensus env prompt llms t mt).synthesized_result = "" ∧
      ((execute_consensus env prompt llms t mt).success = true ↔
        (execute_consensus env prompt llms t mt).llms_executed ≠ 0) := by
  have hallfail : ∀ r ∈ consensusResults env (consensusRequests prompt llms t mt),
      r.success = false := by
    intro r hr
    obtain ⟨req, hreq, hnone, heq⟩ := consensusResults_mem env _ r hr
    have hf := hfail req hreq
    unfold resolveFuture at hf
    rw [hnone] at hf
    rw [heq]
    exact hf
  cases hres : consensusResults env (consensusRequests prompt llms t mt) with
  | nil =>
    simp [execute_consensus, hres, pyMaxByConf]
  | cons r rs =>
    have hsome : pyMaxByConf (r :: rs) = some (rs.foldl
        (fun best q => if best.confidence_score < q.confidence_score then q else best) r) :=
      rfl
    have hmem : (rs.foldl
        (fun best q => if best.confidence_score < q.confidence_score then q else best) r) ∈
        consensusResults env (consensusRequests prompt llms t mt) := by
      rw [hres]
      exact pyMaxByConf_mem (r :: rs) _ hsome
    obtain ⟨req, hreq, hnone, heq⟩ := consensusResults_mem env _ _ hmem
    have hshape := execute_single_llm_fail_shape req (env.invokeBody req)
      (by rw [← heq]; exact hallfail _ hmem)
    refine ⟨?_, ?_, ?_⟩
    · simp only [execute_consensus, hres, hsome]
      rw [heq]
      exact hshape.2.1
    · simp only [execute_consensus, hres, hsome]
      rw [heq]
      exact hshape.1
    · simp only [execute_consensus, hres, hsome]
      simp

/-- C1 counterexample: a parallel execution with one available
interface model whose only invocation fails returns success = true and
the non-empty fallback text "Unable to generate result from available
LLMs", not success = false with empty synthesized text. -/
theorem c1_counterexample :
    ((execute_parallel initState c1Call).1.interface_llm_results ++
        (execute_parallel initState c1Call).1.knowledge_llm_results).all
        (fun r => !r.success) = true ∧
    (execute_parallel initState c1Call).1.llms_executed = 1 ∧
    (execute_parallel initState c1Call).1.success = true ∧
    (execute_parallel initState c1Call).1.synthesized_result =
      "Unable to generate result from available LLMs" :=
  ⟨rfl, rfl, rfl, rfl⟩

/-- C1 amended: when models are available and every invoked call fails,
the combined confidence is 0; but under the parallel strategy the
result reports success = true and the fixed fallback message as
synthesized text (not success = false and empty text), and under the
consensus strategy the text is empty and success is true exactly when
at least one future completed, even though its response failed. -/
theorem c1_all_fail_amended (st : ExecutorState) (c : CallInputs)
    (hnm : c.noModels = false) :
    (c.strategy = .parallel →
      (∀ req ∈ parallelRequests c.prompt (c.interface_catalog.take c.num_interface_llms)
          (c.knowledge_catalog.take c.num_knowledge_llms) c.temperature c.max_tokens,
          (resolveFuture c.env req).success = false) →
      (execute_parallel st c).1.confidence_score = 0 ∧
        (execute_parallel st c).1.success = true ∧
        (execute_parallel st c).1.synthesized_result =
          "Unable to generate result from available LLMs") ∧
    (c.strategy = .consensus →
      (∀ req ∈ consensusRequests c.prompt
          (c.interface_catalog.take c.num_interface_llms ++
            c.knowledge_catalog.take c.num_knowledge_llms) c.temperature c.max_tokens,
          (resolveFuture c.env req).success = false) →
      (execute_parallel st c).1.confidence_score = 0 ∧
        (execute_parallel st c).1.synthesized_result = "" ∧
        ((execute_parallel st c).1.success = true ↔
          (execute_parallel st c).1.llms_executed ≠ 0)) := by
  constructor
  · intro hstrat hfail
    rw [execute_parallel_with_models st c hnm]
    simp only [dispatchStrategy, hstrat]
    have hall := collectResults_all_fail c.env _ hfail
    have hfi := filter_success_eq_nil _ hall.1
    have hfk := filter_success_eq_nil _ hall.2
    simp only [execute_parallel_mcp, synthesize_parallel_results, hfi, hfk, pyMaxByConf]
    refine ⟨?_, ?_, ?_⟩ <;> first | rfl | trivial
  · intro hstrat hfail
    rw [execute_parallel_with_models st c hnm]
    simp only [dispatchStrategy, hstrat]
    have h := execute_consensus_all_fail c.env c.prompt _ c.temperature c.max_tokens hfail
    exact ⟨h.1, h.2.1, h.2.2⟩

theorem c1_all_fail_amended_witness :
    (execute_parallel initState c1Call).1.confidence_score = 0 ∧
      (execute_parallel initState c1Call).1.success = true ∧
      (execute_parallel initState c1Call).1.synthesized_result =
        "Unable to generate result from available LLMs" :=
  (c1_all_fail_amended initState c1Call rfl).1 rfl (fun _ _ => rfl)

/-- C4 counterexample: with empty catalogs the engine fails with error
text exactly "No LLMs available", which differs from the claimed
"no models available". -/
theorem c4_counterexample :
    (execute_parallel initState emptyCall).1.success = false ∧
    (execute_parallel initState emptyCall).1.llms_executed = 0 ∧
    (execute_parallel initState emptyCall).1.error = some "No LLMs available" ∧
    some "No LLMs available" ≠ some "no models available" :=
  ⟨rfl, rfl, rfl, by decide⟩

/-- C4 amended: when both sliced model lists are empty, every strategy
returns success = false, zero models executed and error "No LLMs
available" without touching the executor state; when only the class
needed by interface_only / knowledge_only is empty, the result is
success = false, zero models executed, and the per-class error
"No interface LLMs available" / "No knowledge LLMs available". -/
theorem c4_no_models_amended (st : ExecutorState) (c : CallInputs) :
    ((c.interface_catalog.take c.num_interface_llms = [] ∧
        c.knowledge_catalog.take c.num_knowledge_llms = []) →
      (execute_parallel st c).1.success = false ∧
        (execute_parallel st c).1.llms_executed = 0 ∧
        (execute_parallel st c).1.error = some "No LLMs available" ∧
        (execute_parallel st c).2 = st) ∧
    (c.strategy = .interface_only →
      c.interface_catalog.take c.num_interface_llms = [] →
      c.knowledge_catalog.take c.num_knowledge_llms ≠ [] →
      (execute_parallel st c).1.success = false ∧
        (execute_parallel st c).1.llms_executed = 0 ∧
        (execute_parallel st c).1.error = some "No interface LLMs available") ∧
    (c.strategy = .knowledge_only →
      c.knowledge_catalog.take c.num_knowledge_llms = [] →
      c.interface_catalog.take c.num_interface_llms ≠ [] →
      (execute_parallel st c).1.success = false ∧
        (execute_parallel st c).1.llms_executed = 0 ∧
        (execute_parallel st c).1.error = some "No knowledge LLMs available") := by
  refine ⟨?_, ?_, ?_⟩
  · rintro ⟨h1, h2⟩
    have hnm : c.noModels = true := by
      unfold CallInputs.noModels
      rw [h1, h2]
      rfl
    rw [execute_parallel_no_models st c hnm]
    exact ⟨rfl, rfl, rfl, rfl⟩
  · intro hstrat h1 h2
    have hnm : c.noModels = false := by
      unfold CallInputs.noModels
      rw [h1]
      cases hk : c.knowledge_catalog.take c.num_knowledge_llms with
      | nil => exact absurd hk h2
      | cons a as => rfl
    rw [execute_parallel_with_models st c hnm]
    simp only [dispatchStrategy, hstrat]
    rw [h1]
    exact ⟨rfl, rfl, rfl⟩
  · intro hstrat h1 h2
    have hnm : c.noModels = false := by
      unfold CallInputs.noModels
      rw [h1]
      cases hk : c.interface_catalog.take c.num_interface_llms with
      | nil => exact absurd hk h2
      | cons a as => rfl
    rw [execute_parallel_with_models st c hnm]
    simp only [dispatchStrategy, hstrat]
    rw [h1]
    exact ⟨rfl, rfl, rfl⟩

theorem c4_no_models_amended_witness :
    (execute_parallel initState emptyCall).1.success = false ∧
      (execute_parallel initState emptyCall).1.llms_executed = 0 ∧
      (execute_parallel initState emptyCall).1.error = some "No LLMs available" ∧
      (execute_parallel initState emptyCall).2 = initState :=
  (c4_no_models_amended initState emptyCall).1 ⟨rfl, rfl⟩

/-- C6 counterexample: a consensus dispatch of one request whose
future raises produces zero results — the request is dropped, so
cardinality is not preserved. -/
theorem c6_counterexample :
    (consensusRequests "p" [llmA] 0.7 2048).length = 1 ∧
    (execute_consensus envRaiseAll "p" [llmA] 0.7 2048).llms_executed = 0 ∧
    (execute_consensus envRaiseAll "p" [llmA] 0.7 2048).interface_llm_results = [] ∧
    (execute_consensus envRaiseAll "p" [llmA] 0.7 2048).knowledge_llm_results = [] :=
  ⟨rfl, rfl, rfl, rfl⟩

/-- C6 amended: the parallel dispatch produces exactly one result per
request — the interface result list carries the interface model ids in
submission order and the knowledge result list the knowledge model
ids — while the consensus dispatch keeps exactly one result per
request whose future completed, dropping those that raised. -/
theorem c6_cardinality_amended (env : ExecEnv) (prompt : String)
    (iface know llms : List LLMInfo) (t : Rat) (mt : Nat) :
    ((execute_parallel_mcp env prompt iface know t mt).llms_executed =
        iface.length + know.length ∧
      (execute_parallel_mcp env prompt iface know t mt).interface_llm_results.map
          (·.llm_id) = iface.map (·.model_id) ∧
      (execute_parallel_mcp env prompt iface know t mt).knowledge_llm_results.map
          (·.llm_id) = know.map (·.model_id)) ∧
    (execute_consensus env prompt llms t mt).llms_executed =
      ((consensusRequests prompt llms t mt).filter
        (fun req => (env.futureRaises req).isNone)).length := by
  have hcollect := collect_blocks env
    (iface.map (fun llm => mkRequest llm "interface" (format_interface_prompt prompt) t mt))
    (know.map (fun llm => mkRequest llm "knowledge" (format_knowledge_prompt prompt) t mt))
    (by
      intro r hr
      simp only [List.mem_map] at hr
      obtain ⟨llm, _, rfl⟩ := hr
      rfl)
    (by
      intro r hr
      simp only [List.mem_map] at hr
      obtain ⟨llm, _, rfl⟩ := hr
      simp [mkRequest])
  refine ⟨⟨?_, ?_, ?_⟩, ?_⟩
  · simp only [execute_parallel_mcp, parallelRequests, hcollect]
    simp
  · simp only [execute_parallel_mcp, parallelRequests, hcollect]
    simp [List.map_map, Function.comp, resolveFuture_llm_id, mkRequest]
  · simp only [execute_parallel_mcp, parallelRequests, hcollect]
    simp [List.map_map, Function.comp, resolveFuture_llm_id, mkRequest]
  · simp only [execute_consensus]
    exact consensusResults_length env _

/-- C7 counterexample: a call that finds no models returns before the
statistics update, so after K = 1 such call totalExecutions is 0, not
1. -/
theorem c7_counterexample :
    (runCalls initState [emptyCall]).statistics.total_executions = 0 ∧
      (0 : Nat) ≠ 1 :=
  ⟨rfl, by decide⟩

/-- C7 amended: after any sequence of calls, totalExecutions equals
the number of calls that found at least one model (calls that found
none leave the ledger untouched), and parallelExecutions +
singleExecutions always equals totalExecutions. -/
theorem c7_statistics_amended (cs : List CallInputs) (st : ExecutorState)
    (hinv : st.statistics.total_executions =
      st.statistics.parallel_executions + st.statistics.single_executions) :
    (runCalls st cs).statistics.total_executions =
      st.statistics.total_executions + countWithModels cs ∧
    (runCalls st cs).statistics.total_executions =
      (runCalls st cs).statistics.parallel_executions +
        (runCalls st cs).statistics.single_executions := by
  induction cs generalizing st with
  | nil =>
    exact ⟨by simp [runCalls, countWithModels], hinv⟩
  | cons c rest ih =>
    simp only [runCalls]
    cases hnm : c.noModels with
    | true =>
      rw [execute_parallel_no_models st c hnm]
      have hcount : countWithModels (c :: rest) = countWithModels rest := by
        simp [countWithModels, List.filter_cons, hnm]
      rw [hcount]
      exact ih st hinv
    | false =>
      obtain ⟨hs1, hs2⟩ := execute_parallel_statistics_step st c hnm
      have hinv2 : (execute_parallel st c).2.statistics.total_executions =
          (execute_parallel st c).2.statistics.parallel_executions +
            (execute_parallel st c).2.statistics.single_executions := by omega
      obtain ⟨ihA, ihB⟩ := ih (execute_parallel st c).2 hinv2
      have hcount : countWithModels (c :: rest) = countWithModels rest + 1 := by
        simp [countWithModels, List.filter_cons, hnm]
      exact ⟨by omega, ihB⟩

theorem c7_statistics_amended_witness :
    initState.statistics.total_executions =
        initState.statistics.parallel_executions +
          initState.statistics.single_executions ∧
      countWithModels [seqCall, emptyCall] = 1 ∧
      (runCalls initState [seqCall, emptyCall]).statistics.total_executions =
        initState.statistics.total_executions + countWithModels [seqCall, emptyCall] ∧
      (runCalls initState [seqCall, emptyCall]).statistics.total_executions =
        (runCalls initState [seqCall, emptyCall]).statistics.parallel_executions +
          (runCalls initState [seqCall, emptyCall]).statistics.single_executions := by
  have h := c7_statistics_amended [seqCall, emptyCall] initState rfl
  exact ⟨rfl, rfl, h.1, h.2⟩

/-- C8 counterexample: the recent-history store is not a
fixed-capacity ring of 10 — after 11 executions it holds 11 entries,
nothing having been evicted. -/
theorem c8_counterexample :
    (runCalls initState (List.replicate 11 seqCall)).execution_history.length = 11 ∧
    ¬ (runCalls initState
        (List.replicate 11 seqCall)).execution_history.length ≤ 10 := by
  have h := runCalls_history_length (List.replicate 11 seqCall) initState
  have hc : countWithModels (List.replicate 11 seqCall) = 11 := rfl
  rw [hc] at h
  constructor
  · rw [h]
    rfl
  · rw [h]
    decide

/-- C8 amended: the history store is an unbounded append-only list —
each recorded execution appends exactly one summary and evicts
nothing — while the get_statistics snapshot exposes the last 10
entries, which form a length-10 suffix (exactly the 10 most recent
summaries) once more than 10 executions have been recorded. -/
theorem c8_ledger_amended (st : ExecutorState) (c : CallInputs)
    (hnm : c.noModels = false) :
    (execute_parallel st c).2.execution_history.length =
        st.execution_history.length + 1 ∧
      (∃ entry, (execute_parallel st c).2.execution_history =
        st.execution_history ++ [entry]) ∧
      (get_statistics (execute_parallel st c).2).recent_executions =
        takeLast 10 (execute_parallel st c).2.execution_history ∧
      (∀ l : List HistoryEntry, 10 ≤ l.length →
        (takeLast 10 l).length = 10 ∧ ∃ front, l = front ++ takeLast 10 l) := by
  obtain ⟨entry, hE⟩ := execute_parallel_history_step st c hnm
  refine ⟨by rw [hE]; simp, ⟨entry, hE⟩, rfl, ?_⟩
  intro l hl
  constructor
  · simp only [takeLast, List.length_drop]
    omega
  · exact ⟨l.take (l.length - 10), (List.take_append_drop _ l).symm⟩

theorem c8_ledger_amended_witness :
    (execute_parallel initState seqCall).2.execution_history.length =
        initState.execution_history.length + 1 ∧
      (get_statistics (execute_parallel initState seqCall).2).recent_executions =
        takeLast 10 (execute_parallel initState seqCall).2.execution_history := by
  have h := c8_ledger_amended initState seqCall rfl
  exact ⟨h.1, h.2.2.1⟩

end CogniwareIMS
